import Mathlib

/-!
Verification of the schema-registry TypeScript SDK client and of the
spec-described Schema Validation & Compatibility Engine.

Part 1 embeds the code under src/sdks/typescript (types.js, errors.js,
client.ts) as Lean definitions: JavaScript truthiness on optional strings
and arrays is modelled explicitly, fallible HTTP calls are passed in as
Except values, and the LRU cache is modelled as a partial map from keys
to responses.

Part 2 models the Schema Validation & Compatibility Engine, whose
implementation is not part of the given sources (only documentation and
the SDK caller are); those definitions are modelled from the spec, as
their doc comments state.
-/

namespace SchemaRegistry

/-! ## Part 1: the TypeScript SDK client -/

/-- Embeds the `SchemaFormat` enum of dist/types.js. -/
inductive SchemaFormat where
  | json_schema
  | avro
  | protobuf
deriving DecidableEq, Repr

/-- Embeds the `CompatibilityMode` enum of dist/types.js: seven variants. -/
inductive CompatibilityMode where
  | backward
  | forward
  | full
  | backward_transitive
  | forward_transitive
  | full_transitive
  | none
deriving DecidableEq, Repr

/-- The string value each `CompatibilityMode` enum member carries in
dist/types.js. -/
def CompatibilityMode.value : CompatibilityMode → String
  | .backward => "backward"
  | .forward => "forward"
  | .full => "full"
  | .backward_transitive => "backward_transitive"
  | .forward_transitive => "forward_transitive"
  | .full_transitive => "full_transitive"
  | .none => "none"

/-- Embeds the error class hierarchy of dist/errors.js. Every constructor
is a subclass of `SchemaRegistryError`; the base class stores the message
and an optional status code, each subclass stores its own payload. -/
inductive RegistryError where
  | schemaRegistryError (message : String) (statusCode : Option Nat)
  | schemaNotFoundError (schemaId : String)
  | schemaValidationError (errors : List String)
  | incompatibleSchemaError (incompatibilities : List String)
  | authenticationError (message : String)
  | authorizationError (message : String)
  | rateLimitError (retryAfter : Option Nat)
  | serverError (message : String)
deriving DecidableEq, Repr

/-- The `statusCode` each constructor of dist/errors.js passes to
`super`: subclasses pass a fixed literal; the base class stores whatever
it was given (possibly `undefined`, i.e. `Option.none`). -/
def RegistryError.statusCode : RegistryError → Option Nat
  | .schemaRegistryError _ s => s
  | .schemaNotFoundError _ => some 404
  | .schemaValidationError _ => some 400
  | .incompatibleSchemaError _ => some 409
  | .authenticationError _ => some 401
  | .authorizationError _ => some 403
  | .rateLimitError _ => some 429
  | .serverError _ => some 500

/-- The `message` each constructor of dist/errors.js builds. -/
def RegistryError.messageOf : RegistryError → String
  | .schemaRegistryError m _ => m
  | .schemaNotFoundError id => "Schema not found: " ++ id
  | .schemaValidationError es =>
      "Schema validation failed:\n" ++ String.intercalate "\n" (es.map (fun e => "  - " ++ e))
  | .incompatibleSchemaError is =>
      "Schema compatibility check failed:\n" ++ String.intercalate "\n" (is.map (fun i => "  - " ++ i))
  | .authenticationError m => m
  | .authorizationError m => m
  | .rateLimitError r =>
      match r with
      | some n => "Rate limit exceeded. Retry after " ++ toString n ++ " seconds"
      | Option.none => "Rate limit exceeded"
  | .serverError m => m

/-- The optional `data` body of an HTTP error response, as read by
`handleError` in client.ts: the fields `error`, `message` and `errors`,
each possibly absent. -/
structure ResponseData where
  errorMsg : Option String
  message : Option String
  errors : Option (List String)
deriving DecidableEq, Repr

/-- An HTTP response attached to an Axios error: status code and body. -/
structure AxiosResponse where
  status : Nat
  data : ResponseData
deriving DecidableEq, Repr

/-- The `unknown` value caught by a client operation: an Axios error
(with its `message`, the axios-retry network/idempotent classification,
and an optional response), some other JavaScript `Error`, or a non-Error
value. -/
inductive CaughtError where
  | axiosError (message : String) (networkOrIdempotent : Bool) (response : Option AxiosResponse)
  | jsError (message : String)
  | nonErrorValue
deriving DecidableEq, Repr

/-- JavaScript truthiness for an optional string: `undefined` and the
empty string are falsy. -/
def jsTruthyString : Option String → Option String
  | some "" => Option.none
  | o => o

/-- The `message` computed in `handleError` (client.ts line 215):
`response?.data?.message || response?.data?.error || axiosError.message`. -/
def responseMessage (fallback : String) : Option AxiosResponse → String
  | Option.none => fallback
  | some r => ((jsTruthyString r.data.message).orElse (fun _ => jsTruthyString r.data.errorMsg)).getD fallback

/-- The `errors` list computed in `handleError` (client.ts line 216):
`response?.data?.errors || [message]`. A present array is truthy in
JavaScript even when empty, so `some []` stays `[]`. -/
def responseErrors (message : String) : Option AxiosResponse → List String
  | Option.none => [message]
  | some r =>
      match r.data.errors with
      | some es => es
      | Option.none => [message]

/-- Embeds `handleError` (client.ts lines 211-240): an Axios error is
dispatched on its response status (the `switch`, with 401 and 403 falling
through to the same case and `undefined` hitting `default`); other
`Error` values and non-Error values fall back to the base class. -/
def handleError : CaughtError → RegistryError
  | .axiosError msg _ response =>
      let status := response.map AxiosResponse.status
      let message := responseMessage msg response
      let errors := responseErrors message response
      if status = some 401 ∨ status = some 403 then .authenticationError message
      else if status = some 404 then .schemaNotFoundError message
      else if status = some 409 then .incompatibleSchemaError errors
      else if status = some 422 then .schemaValidationError errors
      else if status = some 429 then .rateLimitError Option.none
      else .schemaRegistryError message status
  | .jsError msg => .schemaRegistryError msg Option.none
  | .nonErrorValue => .schemaRegistryError "Unknown error occurred" Option.none

/-- The client configuration (client.ts `ClientConfig` fields used by the
constructor), each field possibly absent. -/
structure ClientConfig where
  maxRetries : Option Nat
  timeout : Option Nat
  cacheMaxSize : Option Nat
  cacheTTL : Option Nat
deriving DecidableEq, Repr

/-- JavaScript `v || d` on an optional number: `undefined` and `0` are
falsy and yield the default. -/
def jsOrNat (v : Option Nat) (d : Nat) : Nat :=
  match v with
  | some 0 => d
  | some n => n
  | Option.none => d

/-- The retry count configured in the constructor (client.ts line 41):
`config.maxRetries || 3`. -/
def configuredRetries (cfg : ClientConfig) : Nat := jsOrNat cfg.maxRetries 3

/-- Embeds the `retryCondition` passed to axios-retry (client.ts lines
43-49): network/idempotent request errors, HTTP 429, and
`(status || 0) >= 500` are retried. Only Axios errors reach it. -/
def retryCondition : CaughtError → Bool
  | .axiosError _ networkOrIdempotent response =>
      let status := response.map AxiosResponse.status
      networkOrIdempotent || decide (status = some 429) || decide (500 ≤ status.getD 0)
  | _ => false

/-- Models axios-retry around one client request: a request whose error
satisfies `retryCondition` is attempted once plus the configured number
of retries; any other failing request is attempted exactly once. -/
def requestAttempts (cfg : ClientConfig) (e : CaughtError) : Nat :=
  if retryCondition e then 1 + configuredRetries cfg else 1

/-- Minimal model of the `GetSchemaResponse` payload cached by the
client; its contents are opaque to the caching logic. -/
structure GetSchemaResponse where
  payload : String
deriving DecidableEq, Repr

/-- The client's LRU cache, modelled as a partial map from string keys to
responses (a live, within-TTL entry is a `some`). -/
def Cache : Type := String → Option GetSchemaResponse

/-- The cache key built by `getSchema` and `deleteSchema` in client.ts:
the template string `namespace:name:version`. -/
def cacheKey (ns nm ver : String) : String := ns ++ ":" ++ nm ++ ":" ++ ver

/-- The shared try/catch shape of the client operations that do not touch
the cache (`registerSchema`, `getLatestSchema`, `validate`,
`checkCompatibility`, `searchSchemas`, `listSchemas` in client.ts): the
HTTP outcome is returned on success, and on failure the operation throws
exactly `handleError` of the caught value. -/
def clientRequest (α : Type) : Except CaughtError α → Except RegistryError α
  | .ok a => .ok a
  | .error e => .error (handleError e)

/-- Outcome of the `getSchema` model: the value returned or thrown, the
cache afterwards, and whether an HTTP request was made. -/
structure GetSchemaOutcome where
  result : Except RegistryError GetSchemaResponse
  newCache : Cache
  madeRequest : Bool

/-- Embeds `getSchema` (client.ts lines 77-97): answer from the cache
when the key is present (no request), otherwise perform the request,
cache a successful response under the key, and throw `handleError` of a
failure. -/
def getSchema (cache : Cache) (ns nm ver : String)
    (server : Except CaughtError GetSchemaResponse) : GetSchemaOutcome :=
  let key := cacheKey ns nm ver
  match cache key with
  | some cached => ⟨.ok cached, cache, false⟩
  | Option.none =>
      match server with
      | .ok resp => ⟨.ok resp, fun k => if k = key then some resp else cache k, true⟩
      | .error e => ⟨.error (handleError e), cache, true⟩

/-- Embeds `deleteSchema` (client.ts lines 186-199): on HTTP success the
single cache entry under `namespace:name:version` is invalidated; on
failure the cache is untouched and `handleError` of the error is thrown. -/
def deleteSchema (cache : Cache) (ns nm ver : String)
    (server : Except CaughtError Unit) : Except RegistryError Unit × Cache :=
  match server with
  | .ok _ => ⟨.ok (), fun k => if k = cacheKey ns nm ver then Option.none else cache k⟩
  | .error e => ⟨.error (handleError e), cache⟩

/-! ## Part 2: the Schema Validation & Compatibility Engine

The engine implementation is not among the given sources (only its
documentation and the SDK caller are), so the definitions below are
modelled from the spec, as their doc comments state. -/

/-- Modelled from the spec: the primitive kinds of the normalized AST.
Numeric widths are preserved as distinct kinds (spec 4.1). -/
inductive PrimKind where
  | pNull
  | pBool
  | pInt32
  | pInt64
  | pFloat
  | pDouble
  | pString
  | pBytes
deriving DecidableEq, Repr

/-- Modelled from the spec: the `Field(name, type, required, default?)`
variant of the normalized AST (spec 3), parametric in the type of its
field type so it can be nested inside `SchemaNode`. -/
structure FieldNode (α : Type) where
  name : String
  ftype : α
  required : Bool
  defaultValue : Option String
deriving DecidableEq, Repr

/-- Modelled from the spec: the normalized AST `SchemaNode` (spec 3) with
variants Primitive, Record, Array, Map, Enum and Union. Fields live
inside their Record. The Enum carries the optional default symbol that
the `canRead` rule of spec 4.3 refers to. -/
inductive SchemaNode where
  | primitive (kind : PrimKind)
  | record (name : String) (fields : List (FieldNode SchemaNode))
  | arr (elementType : SchemaNode)
  | mapNode (valueType : SchemaNode)
  | enum (name : String) (symbols : List String) (defaultSymbol : Option String)
  | union (members : List SchemaNode)

/-- Modelled from the spec: primitive widening (spec 4.3) — int32 to
int64 and float to double are readable, narrowing is not. -/
def primWidening : PrimKind → PrimKind → Bool
  | .pInt32, .pInt64 => true
  | .pFloat, .pDouble => true
  | _, _ => false

/-- A writer primitive is readable as a reader primitive when the kinds
are equal or the change is a widening. -/
def primCompatible (w r : PrimKind) : Bool := decide (w = r) || primWidening w r

mutual
/-- Modelled from the spec: `canRead(writer, reader)` (spec 4.3) — true
iff data written with the writer schema can be decoded using the reader
schema. Records: every field required by the reader either exists in the
writer with a compatible type or has a default in the reader, extra
writer fields are ignored. Enums: every writer symbol is accepted by the
reader, or the reader declares a default symbol. Unions: every writer
member is accepted by at least one reader member. Primitives: equal or
widened. Mismatched variants are unreadable. -/
def canRead : SchemaNode → SchemaNode → Bool
  | .primitive wk, .primitive rk => primCompatible wk rk
  | .record _ wfs, .record _ rfs => readerFieldsOk wfs rfs
  | .arr we, .arr re => canRead we re
  | .mapNode wv, .mapNode rv => canRead wv rv
  | .enum _ wsyms _, .enum _ rsyms rdef =>
      (wsyms.all fun s => decide (s ∈ rsyms)) || rdef.isSome
  | .union wms, .union rms => unionMembersOk wms rms
  | _, _ => false
termination_by w r => sizeOf w + sizeOf r
decreasing_by
  all_goals simp_wf
  all_goals omega

/-- Record rule of `canRead`: each reader field in turn must be
satisfied by the writer fields. -/
def readerFieldsOk : List (FieldNode SchemaNode) → List (FieldNode SchemaNode) → Bool
  | _, [] => true
  | wfs, ⟨rn, rt, rreq, rdef⟩ :: rfs =>
      (!rreq || rdef.isSome || hasCompatibleField rn rt wfs) && readerFieldsOk wfs rfs
termination_by wfs rfs => sizeOf wfs + sizeOf rfs
decreasing_by
  all_goals simp_wf
  all_goals omega

/-- Whether some writer field has the given reader field name and a type
the reader field can decode. -/
def hasCompatibleField (rn : String) (rt : SchemaNode) : List (FieldNode SchemaNode) → Bool
  | [] => false
  | ⟨wn, wt, _, _⟩ :: wfs => (decide (wn = rn) && canRead wt rt) || hasCompatibleField rn rt wfs
termination_by wfs => sizeOf rt + sizeOf wfs
decreasing_by
  all_goals simp_wf
  all_goals omega

/-- Union rule of `canRead`: each writer member in turn must be accepted
by the reader members. -/
def unionMembersOk : List SchemaNode → List SchemaNode → Bool
  | [], _ => true
  | wm :: wms, rms => someMemberAccepts wm rms && unionMembersOk wms rms
termination_by wms rms => sizeOf wms + sizeOf rms
decreasing_by
  all_goals simp_wf
  all_goals omega

/-- Whether at least one reader union member accepts the writer member. -/
def someMemberAccepts : SchemaNode → List SchemaNode → Bool
  | _, [] => false
  | wm, rm :: rms => canRead wm rm || someMemberAccepts wm rms
termination_by wm rms => sizeOf wm + sizeOf rms
decreasing_by
  all_goals simp_wf
  all_goals omega
end

/-- Modelled from the spec: the `CompatibilityVerdict` record (spec 3) —
a pass/fail flag, the ordered incompatibility reasons, and the ordered
version identifiers checked. Versions are identified by their 1-based
oldest-first position in the history. -/
structure CompatibilityVerdict where
  compatible : Bool
  incompatibilities : List String
  checkedAgainstVersions : List Nat
deriving DecidableEq, Repr

/-- Modelled from the spec: the localized reason recorded for a failing
predicate names the history version it failed against (spec 4.3). -/
def incompatReason (i : Nat) : String :=
  "candidate is incompatible with version " ++ toString i

/-- Modelled from the spec: the pairwise predicate each mode applies
between the candidate and one history entry (spec 4.3): BACKWARD is
`canRead(candidate, entry)`, FORWARD is `canRead(entry, candidate)`,
FULL is both; the transitive variants use the same pairwise predicate. -/
def modePredicate : CompatibilityMode → SchemaNode → SchemaNode → Bool
  | .backward, cand, prior => canRead cand prior
  | .forward, cand, prior => canRead prior cand
  | .full, cand, prior => canRead cand prior && canRead prior cand
  | .backward_transitive, cand, prior => canRead cand prior
  | .forward_transitive, cand, prior => canRead prior cand
  | .full_transitive, cand, prior => canRead cand prior && canRead prior cand
  | .none, _, _ => true

/-- The three transitive modes. -/
def isTransitive : CompatibilityMode → Bool
  | .backward_transitive => true
  | .forward_transitive => true
  | .full_transitive => true
  | _ => false

/-- Modelled from the spec: the oldest-first scan of the history used by
the transitive modes (spec 4.3), carrying the 1-based version number of
the next entry. It returns the versions checked and the reasons found;
evaluation short-circuits at the first failing predicate, so entries
after the failure are never examined. -/
def transitiveScan (mode : CompatibilityMode) (cand : SchemaNode) :
    List SchemaNode → Nat → List Nat × List String
  | [], _ => ([], [])
  | p :: rest, i =>
      if modePredicate mode cand p then
        let r := transitiveScan mode cand rest (i + 1)
        (i :: r.1, r.2)
      else ([i], [incompatReason i])

/-- Modelled from the spec: the Compatibility Engine's
`checkCompatibility(candidate, history, mode)` (spec 4.2-4.3). NONE is
always compatible and checks nothing; the transitive modes scan the whole
history oldest-first with short-circuit; the plain modes check only the
most recent entry. An empty history for a plain mode is guarded upstream
by `InsufficientHistoryError` and yields a vacuous pass here. -/
def checkCompatibilityEngine (cand : SchemaNode) (history : List SchemaNode)
    (mode : CompatibilityMode) : CompatibilityVerdict :=
  match mode with
  | .none => ⟨true, [], []⟩
  | _ =>
      if isTransitive mode then
        let r := transitiveScan mode cand history 1
        ⟨r.2.isEmpty, r.2, r.1⟩
      else
        match history.getLast? with
        | Option.none => ⟨true, [], []⟩
        | some recent =>
            if modePredicate mode cand recent then ⟨true, [], [history.length]⟩
            else ⟨false, [incompatReason history.length], [history.length]⟩

/-- Modelled from the spec: the usage errors of the external
`CheckCompatibility` operation (spec 6, 7). -/
inductive CoreError where
  | insufficientHistory
  | formatMismatch
deriving DecidableEq, Repr

/-- Modelled from the spec: a schema document as the external interface
sees it — its declared format together with its normalized AST (the
format parsers, also absent from the sources, are elided: the document
carries its parse result). -/
structure ParsedDocument where
  format : SchemaFormat
  ast : SchemaNode

/-- Modelled from the spec: the external
`CheckCompatibility(candidateDocument, priorVersions, mode)` operation
(spec 6) — it fails with `InsufficientHistoryError` when `priorVersions`
is empty and the mode is not NONE, fails with `FormatMismatchError` when
the candidate and any prior version declare different formats (so
cross-format compatibility is never evaluated), and otherwise runs the
Compatibility Engine. -/
def CheckCompatibility (candidate : ParsedDocument) (priorVersions : List ParsedDocument)
    (mode : CompatibilityMode) : Except CoreError CompatibilityVerdict :=
  if priorVersions.isEmpty ∧ mode ≠ .none then .error .insufficientHistory
  else if priorVersions.any (fun p => decide (p.format ≠ candidate.format)) then
    .error .formatMismatch
  else .ok (checkCompatibilityEngine candidate.ast (priorVersions.map ParsedDocument.ast) mode)

/-! ## Helper lemmas -/

theorem sizeOf_ftype_lt_record (nm : String) (fs : List (FieldNode SchemaNode))
    (f : FieldNode SchemaNode) (hf : f ∈ fs) :
    sizeOf f.ftype < sizeOf (SchemaNode.record nm fs) := by
  have h1 : sizeOf f < sizeOf fs := List.sizeOf_lt_of_mem hf
  have h2 : sizeOf f.ftype < sizeOf f := by
    obtain ⟨a, b, c, d⟩ := f
    simp
    omega
  simp
  omega

theorem sizeOf_mem_union (ms : List SchemaNode) (m : SchemaNode) (hm : m ∈ ms) :
    sizeOf m < sizeOf (SchemaNode.union ms) := by
  have h1 : sizeOf m < sizeOf ms := List.sizeOf_lt_of_mem hm
  simp
  omega

theorem hasCompatibleField_of_mem (rn : String) (rt : SchemaNode)
    (wfs : List (FieldNode SchemaNode)) (wf : FieldNode SchemaNode)
    (hmem : wf ∈ wfs) (hname : wf.name = rn) (hread : canRead wf.ftype rt = true) :
    hasCompatibleField rn rt wfs = true := by
  induction wfs with
  | nil => cases hmem
  | cons w ws ih =>
      obtain ⟨wn, wt, wreq, wdef⟩ := w
      simp only [hasCompatibleField, Bool.or_eq_true, Bool.and_eq_true]
      rcases List.mem_cons.mp hmem with h | h
      · subst h
        exact Or.inl ⟨by simp_all, hread⟩
      · exact Or.inr (ih h)

theorem readerFieldsOk_of_forall (wfs rfs : List (FieldNode SchemaNode))
    (h : ∀ rf ∈ rfs, rf.required = false ∨ rf.defaultValue.isSome = true ∨
         hasCompatibleField rf.name rf.ftype wfs = true) :
    readerFieldsOk wfs rfs = true := by
  induction rfs with
  | nil => simp only [readerFieldsOk]
  | cons rf rfs ih =>
      obtain ⟨rn, rt, rreq, rdef⟩ := rf
      simp only [readerFieldsOk, Bool.and_eq_true, Bool.or_eq_true, Bool.not_eq_true']
      refine ⟨?_, ih fun g hg => h g (List.mem_cons_of_mem _ hg)⟩
      have h0 : rreq = false ∨ rdef.isSome = true ∨ hasCompatibleField rn rt wfs = true := by
        simpa using h _ (List.mem_cons_self _ _)
      tauto

theorem someMemberAccepts_of_mem (wm : SchemaNode) (rms : List SchemaNode)
    (rm : SchemaNode) (hmem : rm ∈ rms) (hread : canRead wm rm = true) :
    someMemberAccepts wm rms = true := by
  induction rms with
  | nil => cases hmem
  | cons q qs ih =>
      simp only [someMemberAccepts, Bool.or_eq_true]
      rcases List.mem_cons.mp hmem with h | h
      · exact Or.inl (h ▸ hread)
      · exact Or.inr (ih h)

theorem unionMembersOk_of_forall (wms rms : List SchemaNode)
    (h : ∀ wm ∈ wms, someMemberAccepts wm rms = true) :
    unionMembersOk wms rms = true := by
  induction wms with
  | nil => simp only [unionMembersOk]
  | cons w ws ih =>
      simp only [unionMembersOk, Bool.and_eq_true]
      exact ⟨h _ (List.mem_cons_self _ _), ih fun g hg => h g (List.mem_cons_of_mem _ hg)⟩

theorem canRead_refl_aux : ∀ n : Nat, ∀ s : SchemaNode, sizeOf s < n → canRead s s = true := by
  intro n
  induction n with
  | zero => intro s h; omega
  | succ n ih =>
      intro s hs
      cases s with
      | primitive k => simp [canRead, primCompatible]
      | record nm fs =>
          simp only [canRead]
          apply readerFieldsOk_of_forall
          intro rf hrf
          refine Or.inr (Or.inr ?_)
          apply hasCompatibleField_of_mem _ _ _ rf hrf rfl
          apply ih
          have := sizeOf_ftype_lt_record nm fs rf hrf
          omega
      | arr e =>
          simp only [canRead]
          apply ih
          simp at hs
          omega
      | mapNode v =>
          simp only [canRead]
          apply ih
          simp at hs
          omega
      | enum nm syms ddef =>
          simp [canRead, List.all_eq_true]
      | union ms =>
          simp only [canRead]
          apply unionMembersOk_of_forall
          intro wm hwm
          apply someMemberAccepts_of_mem _ _ wm hwm
          apply ih
          have := sizeOf_mem_union ms wm hwm
          omega

theorem canRead_refl (s : SchemaNode) : canRead s s = true :=
  canRead_refl_aux (sizeOf s + 1) s (by omega)

theorem transitiveScan_all_ok (mode : CompatibilityMode) (cand : SchemaNode)
    (l : List SchemaNode) (i : Nat)
    (h : ∀ p ∈ l, modePredicate mode cand p = true) :
    transitiveScan mode cand l i = (List.range' i l.length, []) := by
  induction l generalizing i with
  | nil => simp [transitiveScan]
  | cons p rest ih =>
      simp only [transitiveScan, h p (List.mem_cons_self _ _), if_true]
      rw [ih (i + 1) fun q hq => h q (List.mem_cons_of_mem _ hq)]
      simp [List.range']

theorem transitiveScan_firstFail (mode : CompatibilityMode) (cand : SchemaNode)
    (pre : List SchemaNode) (bad : SchemaNode) (rest : List SchemaNode) (i : Nat)
    (hok : ∀ p ∈ pre, modePredicate mode cand p = true)
    (hbad : modePredicate mode cand bad = false) :
    transitiveScan mode cand (pre ++ bad :: rest) i =
      (List.range' i (pre.length + 1), [incompatReason (i + pre.length)]) := by
  induction pre generalizing i with
  | nil => simp [transitiveScan, hbad, List.range']
  | cons p ps ih =>
      simp only [List.cons_append, transitiveScan, List.append_eq,
        hok p (List.mem_cons_self _ _), if_true]
      rw [ih (i + 1) fun q hq => hok q (List.mem_cons_of_mem _ hq)]
      have harg : i + 1 + ps.length = i + (ps.length + 1) := by omega
      simp [List.range', harg]

theorem engine_transitive_eq (mode : CompatibilityMode) (hmode : isTransitive mode = true)
    (cand : SchemaNode) (history : List SchemaNode) :
    checkCompatibilityEngine cand history mode =
      ⟨(transitiveScan mode cand history 1).2.isEmpty,
       (transitiveScan mode cand history 1).2,
       (transitiveScan mode cand history 1).1⟩ := by
  cases mode <;> simp_all [checkCompatibilityEngine, isTransitive]

/-! ## Claim theorems -/

/-- Claim C1, counterexample: the claim that no client operation throws
an exception carrying ValidationError entries is false — on an HTTP 422
response the client operation throws a `SchemaValidationError` carrying
the nonempty entry list `["field x is invalid"]`. -/
theorem validation_errors_thrown_counterexample :
    clientRequest Unit (.error (.axiosError "Request failed with status code 422" false
        (some ⟨422, ⟨Option.none, Option.none, some ["field x is invalid"]⟩⟩))) =
      .error (.schemaValidationError ["field x is invalid"]) ∧
    ["field x is invalid"] ≠ ([] : List String) :=
  ⟨rfl, by decide⟩

/-- Claim C1, amended: validation errors are surfaced to the caller as an
ordered list, but they are raised as an exception — on every HTTP 422
response, the client operation throws a `SchemaValidationError` carrying
the response's error list (or the singleton fallback message), rather
than returning a report. -/
theorem validation_errors_thrown_as_exception (α : Type) (msg : String) (ni : Bool)
    (r : AxiosResponse) (h : r.status = 422) :
    clientRequest α (.error (.axiosError msg ni (some r))) =
      .error (.schemaValidationError (responseErrors (responseMessage msg (some r)) (some r))) := by
  simp [clientRequest, handleError, h]

/-- Witness for C1's amended theorem at a concrete 422 response. -/
theorem validation_errors_thrown_as_exception_witness :
    clientRequest Unit (.error (.axiosError "m" false
        (some ⟨422, ⟨Option.none, Option.none, some ["e1", "e2"]⟩⟩))) =
      .error (.schemaValidationError ["e1", "e2"]) := by
  have h := validation_errors_thrown_as_exception Unit "m" false
    ⟨422, ⟨Option.none, Option.none, some ["e1", "e2"]⟩⟩ rfl
  simpa [responseErrors, responseMessage] using h

/-- Claim C2, code-bug exhibit: a 409 response whose body carries an
empty `errors` array produces an `IncompatibleSchemaError` with NO
reasons (a JavaScript array is truthy even when empty, so the
`[message]` fallback is skipped), while a 409 body with no `errors`
field falls back to the singleton message as intended. -/
theorem incompatible_empty_reasons_bug :
    handleError (.axiosError "Request failed with status code 409" false
        (some ⟨409, ⟨Option.none, Option.none, some []⟩⟩)) =
      .incompatibleSchemaError [] ∧
    handleError (.axiosError "Request failed with status code 409" false
        (some ⟨409, ⟨Option.none, Option.none, Option.none⟩⟩)) =
      .incompatibleSchemaError ["Request failed with status code 409"] :=
  ⟨rfl, rfl⟩

/-- Claim C3, counterexample: the claim that every error surfaces after a
single attempt with no internal retry is false — with the default
configuration, a rate-limited (HTTP 429) request is attempted 4 times
(1 + the default 3 retries configured via axios-retry in the client
constructor). -/
theorem single_attempt_counterexample :
    requestAttempts ⟨Option.none, Option.none, Option.none, Option.none⟩
        (.axiosError "Request failed with status code 429" false
          (some ⟨429, ⟨Option.none, Option.none, Option.none⟩⟩)) = 4 ∧
    requestAttempts ⟨Option.none, Option.none, Option.none, Option.none⟩
        (.axiosError "Request failed with status code 429" false
          (some ⟨429, ⟨Option.none, Option.none, Option.none⟩⟩)) ≠ 1 := by
  constructor
  · rfl
  · decide

/-- Claim C3, amended: the client does configure internal retries —
an Axios error that is a network/idempotent-request error, an HTTP 429,
or an HTTP status at least 500 is attempted `1 + (maxRetries || 3)`
times before the error surfaces; every other error (including non-Axios
errors) surfaces after a single attempt. -/
theorem retry_policy_characterization (cfg : ClientConfig) (msg : String) (ni : Bool)
    (r : AxiosResponse) :
    (requestAttempts cfg (.axiosError msg ni (some r)) = 1 ↔
      ni = false ∧ r.status ≠ 429 ∧ r.status < 500) ∧
    (ni = true ∨ r.status = 429 ∨ 500 ≤ r.status →
      requestAttempts cfg (.axiosError msg ni (some r)) = 1 + configuredRetries cfg) ∧
    (∀ m, requestAttempts cfg (.jsError m) = 1) ∧
    requestAttempts cfg .nonErrorValue = 1 := by
  have hc : 1 ≤ configuredRetries cfg := by
    cases h : cfg.maxRetries with
    | none => simp [configuredRetries, jsOrNat, h]
    | some n => cases n <;> simp [configuredRetries, jsOrNat, h]
  have hcond : retryCondition (.axiosError msg ni (some r)) = true ↔
      ni = true ∨ r.status = 429 ∨ 500 ≤ r.status := by
    simp [retryCondition]
    tauto
  refine ⟨?_, ?_, fun m => rfl, rfl⟩
  · by_cases hr : retryCondition (.axiosError msg ni (some r)) = true
    · simp only [requestAttempts, hr, if_true]
      constructor
      · intro h1; omega
      · intro h1
        rcases hcond.mp hr with h2 | h2 | h2
        · exact absurd h2 (by simp [h1.1])
        · exact absurd h2 h1.2.1
        · omega
    · simp only [requestAttempts, hr, if_false]
      have h2 := (not_iff_not.mpr hcond).mp hr
      push_neg at h2
      constructor
      · intro _
        refine ⟨by simpa using h2.1, h2.2.1, by omega⟩
      · intro _; rfl
  · intro h
    have hr : retryCondition (.axiosError msg ni (some r)) = true := hcond.mpr h
    simp [requestAttempts, hr]

/-- Witness for C3's amended theorem: a 500-status request under the
default configuration is attempted 4 times. -/
theorem retry_policy_characterization_witness :
    requestAttempts ⟨Option.none, Option.none, Option.none, Option.none⟩
      (.axiosError "Internal Server Error" false
        (some ⟨500, ⟨Option.none, Option.none, Option.none⟩⟩)) = 4 := by
  have h := (retry_policy_characterization
      ⟨Option.none, Option.none, Option.none, Option.none⟩ "Internal Server Error" false
      ⟨500, ⟨Option.none, Option.none, Option.none⟩⟩).2.1
    (Or.inr (Or.inr (by decide)))
  rw [h]
  decide

/-- Claim C7: `CompatibilityMode` is a closed variant with exactly the
seven members BACKWARD, FORWARD, FULL, BACKWARD_TRANSITIVE,
FORWARD_TRANSITIVE, FULL_TRANSITIVE and NONE, pairwise distinct, whose
enum string values are as declared in dist/types.js. -/
theorem compatibilityMode_closed_seven :
    (∀ m : CompatibilityMode,
      m ∈ [CompatibilityMode.backward, CompatibilityMode.forward, CompatibilityMode.full,
           CompatibilityMode.backward_transitive, CompatibilityMode.forward_transitive,
           CompatibilityMode.full_transitive, CompatibilityMode.none]) ∧
    List.Nodup [CompatibilityMode.backward, CompatibilityMode.forward, CompatibilityMode.full,
           CompatibilityMode.backward_transitive, CompatibilityMode.forward_transitive,
           CompatibilityMode.full_transitive, CompatibilityMode.none] ∧
    List.map CompatibilityMode.value
        [CompatibilityMode.backward, CompatibilityMode.forward, CompatibilityMode.full,
         CompatibilityMode.backward_transitive, CompatibilityMode.forward_transitive,
         CompatibilityMode.full_transitive, CompatibilityMode.none] =
      ["backward", "forward", "full", "backward_transitive", "forward_transitive",
       "full_transitive", "none"] :=
  ⟨fun m => by cases m <;> simp, by decide, by decide⟩

/-- Claim C8: for an Axios error with a response, `handleError`
dispatches solely on the status code — 401/403 to `AuthenticationError`,
404 to `SchemaNotFoundError`, 409 to `IncompatibleSchemaError`, 422 to
`SchemaValidationError` (whose `statusCode` is the class's fixed 400,
not 422), 429 to `RateLimitError`, and anything else to the base
`SchemaRegistryError` carrying the response's status. -/
theorem handleError_status_dispatch (msg : String) (ni : Bool) (r : AxiosResponse) :
    ((r.status = 401 ∨ r.status = 403) →
      handleError (.axiosError msg ni (some r)) =
        .authenticationError (responseMessage msg (some r))) ∧
    (r.status = 404 →
      handleError (.axiosError msg ni (some r)) =
        .schemaNotFoundError (responseMessage msg (some r))) ∧
    (r.status = 409 →
      handleError (.axiosError msg ni (some r)) =
        .incompatibleSchemaError (responseErrors (responseMessage msg (some r)) (some r))) ∧
    (r.status = 422 →
      handleError (.axiosError msg ni (some r)) =
        .schemaValidationError (responseErrors (responseMessage msg (some r)) (some r)) ∧
      (handleError (.axiosError msg ni (some r))).statusCode = some 400) ∧
    (r.status = 429 →
      handleError (.axiosError msg ni (some r)) = .rateLimitError Option.none) ∧
    (r.status ∉ ([401, 403, 404, 409, 422, 429] : List Nat) →
      handleError (.axiosError msg ni (some r)) =
        .schemaRegistryError (responseMessage msg (some r)) (some r.status)) := by
  refine ⟨?_, ?_, ?_, ?_, ?_, ?_⟩ <;> intro h
  · rcases h with h | h <;> simp [handleError, h]
  · simp [handleError, h]
  · simp [handleError, h]
  · constructor
    · simp [handleError, h]
    · simp [handleError, h, RegistryError.statusCode]
  · simp [handleError, h]
  · simp only [List.mem_cons, List.not_mem_nil, or_false] at h
    push_neg at h
    obtain ⟨h1, h2, h3, h4, h5, h6⟩ := h
    simp [handleError, h1, h2, h3, h4, h5, h6]

/-- Witness for C8 at a concrete 422 response: the returned error is the
validation subclass carrying the body's error list, and its status code
is the fixed 400. -/
theorem handleError_status_dispatch_witness :
    handleError (.axiosError "m" false
        (some ⟨422, ⟨Option.none, Option.none, some ["missing field name"]⟩⟩)) =
      .schemaValidationError ["missing field name"] ∧
    (handleError (.axiosError "m" false
        (some ⟨422, ⟨Option.none, Option.none, some ["missing field name"]⟩⟩))).statusCode =
      some 400 := by
  have h := (handleError_status_dispatch "m" false
      ⟨422, ⟨Option.none, Option.none, some ["missing field name"]⟩⟩).2.2.2.1 rfl
  exact ⟨h.1.trans rfl, h.2⟩

/-- Claim C10: every error surfaced by a client operation is in the image
of `handleError` (hence a `SchemaRegistryError` or subclass), and the
fallbacks are total — a non-Axios `Error` maps to the base class with its
own message, and a non-Error value maps to the base class with the
message "Unknown error occurred". -/
theorem client_errors_all_registry_errors (α : Type) :
    (∀ (sr : Except CaughtError α) (ε : RegistryError),
        clientRequest α sr = .error ε → ∃ e : CaughtError, ε = handleError e) ∧
    (∀ m, handleError (.jsError m) = .schemaRegistryError m Option.none) ∧
    handleError .nonErrorValue = .schemaRegistryError "Unknown error occurred" Option.none := by
  refine ⟨?_, fun m => rfl, rfl⟩
  intro sr ε h
  cases sr with
  | ok a => simp [clientRequest] at h
  | error e =>
      refine ⟨e, ?_⟩
      simp only [clientRequest, Except.error.injEq] at h
      exact h.symm

/-- Witness for C10: the fallback error for a thrown non-Error value is
in the image of `handleError`. -/
theorem client_errors_all_registry_errors_witness :
    ∃ e : CaughtError,
      RegistryError.schemaRegistryError "Unknown error occurred" Option.none = handleError e :=
  (client_errors_all_registry_errors Unit).1 (.error CaughtError.nonErrorValue)
    (RegistryError.schemaRegistryError "Unknown error occurred" Option.none) rfl

/-- Claim C4: `CheckCompatibility` fails with `InsufficientHistoryError`
whenever `priorVersions` is empty and the mode is not NONE, and fails
with `FormatMismatchError` whenever the candidate and any prior version
declare different `SchemaFormat` values — so cross-format compatibility
is never evaluated (the engine is not reached). -/
theorem checkCompatibility_usage_errors (candidate : ParsedDocument)
    (priors : List ParsedDocument) (mode : CompatibilityMode) :
    (priors = [] → mode ≠ CompatibilityMode.none →
      CheckCompatibility candidate priors mode = .error CoreError.insufficientHistory) ∧
    (∀ p ∈ priors, p.format ≠ candidate.format →
      CheckCompatibility candidate priors mode = .error CoreError.formatMismatch) := by
  constructor
  · intro h1 h2
    subst h1
    simp [CheckCompatibility, h2]
  · intro p hp hne
    have hmm : priors.any (fun q => decide (q.format ≠ candidate.format)) = true := by
      simp only [List.any_eq_true, decide_eq_true_eq]
      exact ⟨p, hp, hne⟩
    have hne2 : ¬(priors.isEmpty = true ∧ mode ≠ CompatibilityMode.none) := by
      intro hcontra
      rw [List.isEmpty_iff] at hcontra
      rw [hcontra.1] at hp
      cases hp
    simp only [CheckCompatibility]
    rw [if_neg hne2, if_pos hmm]

/-- Witness for C4: an empty history under BACKWARD and a
Protobuf-vs-Avro mismatch each fail with the respective usage error. -/
theorem checkCompatibility_usage_errors_witness :
    CheckCompatibility ⟨SchemaFormat.avro, SchemaNode.record "R" []⟩ []
        CompatibilityMode.backward = .error CoreError.insufficientHistory ∧
    CheckCompatibility ⟨SchemaFormat.avro, SchemaNode.record "R" []⟩
        [⟨SchemaFormat.protobuf, SchemaNode.record "R" []⟩]
        CompatibilityMode.backward = .error CoreError.formatMismatch :=
  ⟨(checkCompatibility_usage_errors ⟨SchemaFormat.avro, SchemaNode.record "R" []⟩ []
      CompatibilityMode.backward).1 rfl (by decide),
   (checkCompatibility_usage_errors ⟨SchemaFormat.avro, SchemaNode.record "R" []⟩
      [⟨SchemaFormat.protobuf, SchemaNode.record "R" []⟩] CompatibilityMode.backward).2
      ⟨SchemaFormat.protobuf, SchemaNode.record "R" []⟩ (by simp) (by decide)⟩

/-- Claim C5: under each transitive mode the pairwise predicate is
checked between the candidate and every history entry oldest-first —
when every entry passes, the verdict is compatible and records every
version in oldest-first order; when some entry fails, evaluation
short-circuits at the first failing entry: the verdict is incompatible,
cites exactly that (1-based, oldest-first) version, and the versions
checked stop there regardless of the remaining history. -/
theorem transitive_modes_oldest_first_short_circuit (mode : CompatibilityMode)
    (hmode : isTransitive mode = true) (cand : SchemaNode) :
    (∀ history : List SchemaNode, (∀ p ∈ history, modePredicate mode cand p = true) →
        checkCompatibilityEngine cand history mode =
          ⟨true, [], List.range' 1 history.length⟩) ∧
    (∀ (pre : List SchemaNode) (bad : SchemaNode) (rest : List SchemaNode),
        (∀ p ∈ pre, modePredicate mode cand p = true) →
        modePredicate mode cand bad = false →
        checkCompatibilityEngine cand (pre ++ bad :: rest) mode =
          ⟨false, [incompatReason (pre.length + 1)], List.range' 1 (pre.length + 1)⟩) := by
  constructor
  · intro history h
    rw [engine_transitive_eq mode hmode, transitiveScan_all_ok mode cand history 1 h]
    rfl
  · intro pre bad rest hok hbad
    rw [engine_transitive_eq mode hmode,
      transitiveScan_firstFail mode cand pre bad rest 1 hok hbad]
    have harg : 1 + pre.length = pre.length + 1 := by omega
    simp [harg]

/-- Witness for C5, the spec's short-circuit scenario: with a candidate
that is incompatible with v1 but compatible with v2, BACKWARD_TRANSITIVE
over [v1, v2] is incompatible, cites version 1, and checked only
version 1. -/
theorem transitive_short_circuit_witness :
    checkCompatibilityEngine (SchemaNode.record "R" [])
        [SchemaNode.record "R" [⟨"a", SchemaNode.primitive PrimKind.pInt32, true, Option.none⟩],
         SchemaNode.record "R" []]
        CompatibilityMode.backward_transitive =
      ⟨false, [incompatReason 1], List.range' 1 1⟩ :=
  (transitive_modes_oldest_first_short_circuit CompatibilityMode.backward_transitive rfl
      (SchemaNode.record "R" [])).2 []
    (SchemaNode.record "R" [⟨"a", SchemaNode.primitive PrimKind.pInt32, true, Option.none⟩])
    [SchemaNode.record "R" []]
    (by simp)
    (by simp [modePredicate, canRead, readerFieldsOk, hasCompatibleField])

/-- Claim C6: when schema B differs from schema A only by inserting one
new field that has a default value, `canRead(B, A)` and `canRead(A, B)`
both hold, and the purely additive change passes a FULL compatibility
check against A. -/
theorem additive_default_field_full_compatible (rname : String)
    (pre post : List (FieldNode SchemaNode)) (nf : FieldNode SchemaNode)
    (hdef : nf.defaultValue.isSome = true) :
    canRead (SchemaNode.record rname (pre ++ nf :: post))
        (SchemaNode.record rname (pre ++ post)) = true ∧
    canRead (SchemaNode.record rname (pre ++ post))
        (SchemaNode.record rname (pre ++ nf :: post)) = true ∧
    checkCompatibilityEngine (SchemaNode.record rname (pre ++ nf :: post))
        [SchemaNode.record rname (pre ++ post)] CompatibilityMode.full =
      ⟨true, [], [1]⟩ := by
  have hBA : canRead (SchemaNode.record rname (pre ++ nf :: post))
      (SchemaNode.record rname (pre ++ post)) = true := by
    simp only [canRead]
    apply readerFieldsOk_of_forall
    intro rf hrf
    refine Or.inr (Or.inr ?_)
    have hmem : rf ∈ pre ++ nf :: post := by
      rcases List.mem_append.mp hrf with h | h
      · exact List.mem_append_left _ h
      · exact List.mem_append_right _ (List.mem_cons_of_mem _ h)
    exact hasCompatibleField_of_mem _ _ _ rf hmem rfl (canRead_refl rf.ftype)
  have hAB : canRead (SchemaNode.record rname (pre ++ post))
      (SchemaNode.record rname (pre ++ nf :: post)) = true := by
    simp only [canRead]
    apply readerFieldsOk_of_forall
    intro rf hrf
    rcases List.mem_append.mp hrf with h | h
    · exact Or.inr (Or.inr
        (hasCompatibleField_of_mem _ _ _ rf (List.mem_append_left _ h) rfl
          (canRead_refl rf.ftype)))
    · rcases List.mem_cons.mp h with h | h
      · subst h
        exact Or.inr (Or.inl hdef)
      · exact Or.inr (Or.inr
          (hasCompatibleField_of_mem _ _ _ rf (List.mem_append_right _ h) rfl
            (canRead_refl rf.ftype)))
  refine ⟨hBA, hAB, ?_⟩
  simp [checkCompatibilityEngine, isTransitive, modePredicate, hBA, hAB]

/-- Witness for C6: adding the optional defaulted field `nickname` to a
record with a required `age` field is FULL-compatible in both directions. -/
theorem additive_default_field_witness :
    canRead
        (SchemaNode.record "R"
          [⟨"age", SchemaNode.primitive PrimKind.pInt32, true, Option.none⟩,
           ⟨"nickname", SchemaNode.primitive PrimKind.pString, false, some "null"⟩])
        (SchemaNode.record "R"
          [⟨"age", SchemaNode.primitive PrimKind.pInt32, true, Option.none⟩]) = true ∧
    canRead
        (SchemaNode.record "R"
          [⟨"age", SchemaNode.primitive PrimKind.pInt32, true, Option.none⟩])
        (SchemaNode.record "R"
          [⟨"age", SchemaNode.primitive PrimKind.pInt32, true, Option.none⟩,
           ⟨"nickname", SchemaNode.primitive PrimKind.pString, false, some "null"⟩]) = true :=
  ⟨(additive_default_field_full_compatible "R"
      [⟨"age", SchemaNode.primitive PrimKind.pInt32, true, Option.none⟩] []
      ⟨"nickname", SchemaNode.primitive PrimKind.pString, false, some "null"⟩ rfl).1,
   (additive_default_field_full_compatible "R"
      [⟨"age", SchemaNode.primitive PrimKind.pInt32, true, Option.none⟩] []
      ⟨"nickname", SchemaNode.primitive PrimKind.pString, false, some "null"⟩ rfl).2.1⟩

/-- Claim C9: a successful `deleteSchema` removes exactly the cache entry
keyed `namespace:name:version` — every other key is unchanged, and a
subsequent `getSchema` for any other key still present in the cache is
answered from the cache without making a request, whatever the server
would have answered. -/
theorem deleteSchema_cache_frame (cache : Cache) (ns nm ver ns2 nm2 ver2 : String)
    (hkey : cacheKey ns2 nm2 ver2 ≠ cacheKey ns nm ver) (resp : GetSchemaResponse)
    (hcached : cache (cacheKey ns2 nm2 ver2) = some resp) :
    (deleteSchema cache ns nm ver (.ok ())).1 = .ok () ∧
    (deleteSchema cache ns nm ver (.ok ())).2 (cacheKey ns nm ver) = Option.none ∧
    (∀ k, k ≠ cacheKey ns nm ver → (deleteSchema cache ns nm ver (.ok ())).2 k = cache k) ∧
    (∀ server : Except CaughtError GetSchemaResponse,
      getSchema (deleteSchema cache ns nm ver (.ok ())).2 ns2 nm2 ver2 server =
        ⟨.ok resp, (deleteSchema cache ns nm ver (.ok ())).2, false⟩) := by
  refine ⟨rfl, ?_, ?_, ?_⟩
  · simp [deleteSchema]
  · intro k hk
    simp [deleteSchema, hk]
  · intro server
    simp [getSchema, deleteSchema, hkey, hcached]

/-- Witness for C9: deleting `ns:sch:1` leaves the cached `ns:other:1`
entry in place and a `getSchema` for it is served from the cache even
when the server would fail. -/
theorem deleteSchema_cache_frame_witness :
    (deleteSchema
        (fun k => if k = "ns:other:1" then some ⟨"cached"⟩ else Option.none)
        "ns" "sch" "1" (.ok ())).2 (cacheKey "ns" "sch" "1") = Option.none ∧
    getSchema
        (deleteSchema
          (fun k => if k = "ns:other:1" then some ⟨"cached"⟩ else Option.none)
          "ns" "sch" "1" (.ok ())).2 "ns" "other" "1" (.error CaughtError.nonErrorValue) =
      ⟨.ok ⟨"cached"⟩,
       (deleteSchema
          (fun k => if k = "ns:other:1" then some ⟨"cached"⟩ else Option.none)
          "ns" "sch" "1" (.ok ())).2, false⟩ := by
  have h := deleteSchema_cache_frame
    (fun k => if k = "ns:other:1" then some ⟨"cached"⟩ else Option.none)
    "ns" "sch" "1" "ns" "other" "1" (by decide) ⟨"cached"⟩ (by decide)
  exact ⟨h.2.1, h.2.2.2 (.error CaughtError.nonErrorValue)⟩

end SchemaRegistry
